import Mathlib

/-!
Verification of the change-aware fetcher `getSpec`
(`src/packages/openapi-ts/src/getSpec.ts`).

The fetcher is embedded shallowly: the HTTP transport is scripted per
invocation (one possible HEAD result and one possible GET result), the
network calls actually issued are recorded in a trace, and the mutable
`watch` state is threaded explicitly.  Machine-level details that the
source delegates to the platform (timers, hooks, byte buffers) carry no
decision logic and are omitted; bodies and buffers are modelled as the
decoded text the source ultimately compares.
-/

namespace OpenapiTs

/-- An HTTP response as seen by `getSpec`: numeric status, header list and
an optional body (`none` models a `null` body stream; the decoded text of
the buffer is the string when present, `""` when absent). -/
structure Response where
  status : Nat
  headers : List (String × String)
  body : Option String
deriving DecidableEq

/-- Embeds `Headers.get`: first entry with the given name, if any. -/
def headerGet (hs : List (String × String)) (k : String) : Option String :=
  (hs.find? (fun p => p.1 == k)).map (fun p => p.2)

/-- Embeds `Response.ok` of the Fetch platform: status in the 2xx range. -/
def Response.ok (r : Response) : Bool :=
  decide (200 ≤ r.status ∧ r.status ≤ 299)

/-- JavaScript truthiness of a `string | undefined` value: present and
non-empty. -/
def truthy : Option String → Bool
  | none => false
  | some s => s != ""

/-- The watch validator collection (`watch.headers`): per the data model it
holds at most one `If-None-Match` and one `If-Modified-Since` entry. -/
structure WatchHeaders where
  ifNoneMatch : Option String := none
  ifModifiedSince : Option String := none
deriving DecidableEq

/-- Rendering of the validator collection as a header list. -/
def WatchHeaders.toList (h : WatchHeaders) : List (String × String) :=
  (match h.ifNoneMatch with
   | some v => [("If-None-Match", v)]
   | none => []) ++
  (match h.ifModifiedSince with
   | some v => [("If-Modified-Since", v)]
   | none => [])

/-- The caller-owned watch state (`WatchValues`), as read and written by
`getSpec`: last observed content (or non-URL marker), stored validators,
and the tri-state HEAD-support flag. -/
structure WatchValues where
  headers : WatchHeaders := {}
  isHeadMethodSupported : Option Bool := none
  lastValue : Option String := none
deriving DecidableEq

/-- The caller-supplied `RequestInit` (`fetchOptions`): only the fields
`getSpec` reads or forwards with observable effect. -/
structure RequestInit where
  method : Option String := none
  headers : List (String × String) := []
deriving DecidableEq

/-- Modelled from the spec: `mergeHeaders` (imported from the client-fetch
plugin bundle, outside `src/`) merges header collections into one, a later
collection overriding an earlier one entry-by-name. -/
def setHeader (hs : List (String × String)) (k v : String) :
    List (String × String) :=
  if hs.any (fun p => p.1 == k) then
    hs.map (fun p => if p.1 == k then (k, v) else p)
  else hs ++ [(k, v)]

/-- Modelled from the spec: merge of two header lists, the second
overriding the first per name. -/
def mergeHeaders (a b : List (String × String)) : List (String × String) :=
  b.foldl (fun acc p => setHeader acc p.1 p.2) a

/-- The resolved input variant (`getResolvedInput` is external; its result
is a tagged union of a URL, a file path, or raw spec data). -/
inductive ResolvedInput
  | url (path : String)
  | file (path : String)
  | raw (data : String)
deriving DecidableEq

/-- Modelled from the spec: `resolvedInput.type`, a marker string derived
from the variant kind (the exact non-URL marker strings live in the
external resolver; only their truthiness and stability matter here). -/
def ResolvedInput.type : ResolvedInput → String
  | .url _ => "url"
  | .file _ => "file"
  | .raw _ => "raw"

/-- Result of one `sendRequest` transport attempt: a response, or a raised
transport error carrying a message. -/
inductive SendResult
  | success (response : Response)
  | failure (message : String)
deriving DecidableEq

/-- The scripted transport for one `getSpec` invocation: the result the
transport would produce for the (at most one) HEAD attempt and the (at
most one) GET attempt. -/
structure Transport where
  headResult : SendResult
  getResult : SendResult
deriving DecidableEq

/-- Which of the two `sendRequest` call sites issued a request. -/
inductive Phase
  | head
  | get
deriving DecidableEq

/-- A transport call as actually issued: call site, effective method of
the constructed request object, and the headers it carries. -/
structure SentRequest where
  phase : Phase
  method : String
  headers : List (String × String)
deriving DecidableEq

/-- The synthesized response `new Response(error.message)` wrapping a
transport error (status 200, no headers, the message as body). -/
def errorResponse (message : String) : Response :=
  { status := 200, headers := [], body := some message }

/-- The `'not-modified' | 'not-ok'` tags of `SpecError.error`. -/
inductive SpecErrorTag
  | notModified
  | notOk
deriving DecidableEq

/-- The `SpecResponse | SpecError` result union of `getSpec`, as a closed
sum: content (optional decoded buffer plus resolved input), or an error
tag with a response. -/
inductive SpecResult
  | specResponse (arrayBuffer : Option String) (resolvedInput : ResolvedInput)
  | specError (error : SpecErrorTag) (response : Response)
deriving DecidableEq

/-- Whether a result is the `'not-modified'` error. -/
def SpecResult.isNotModified : SpecResult → Bool
  | .specError .notModified _ => true
  | _ => false

/-- The request object built for the HEAD probe (source lines 64-72):
`{ method: 'HEAD', ...fetchOptions, headers: merged }` — the spread can
override the method literal, and the merged caller+watch headers are set
last so they always win. -/
def headRequest (fetchOptions : RequestInit) (watch : WatchValues) :
    SentRequest :=
  { phase := Phase.head
    method := fetchOptions.method.getD "HEAD"
    headers := mergeHeaders fetchOptions.headers watch.headers.toList }

/-- The request object built for the GET fetch (source lines 174-181):
`{ method: 'GET', ...fetchOptions }` — no header override, so the request
carries exactly the caller-supplied headers. -/
def getRequest (fetchOptions : RequestInit) : SentRequest :=
  { phase := Phase.get
    method := fetchOptions.method.getD "GET"
    headers := fetchOptions.headers }

/-- Source lines 142-151: the `Last-Modified` block, reached with
`hasChanged` still undefined.  A truthy `Last-Modified` header decides
change by exact string comparison against the stored `If-Modified-Since`,
updating the stored value only when it differs. -/
def evalLastModified (response : Response) (wh : WatchHeaders) :
    Option Bool × WatchHeaders :=
  match headerGet response.headers "Last-Modified" with
  | some lm =>
    if lm = "" then (none, wh)
    else if some lm = wh.ifModifiedSince then (some false, wh)
    else (some true, { wh with ifModifiedSince := some lm })
  | none => (none, wh)

/-- Source lines 132-151: validator evaluation after a usable HEAD
response.  A truthy `ETag` decides change by exact comparison against the
stored `If-None-Match` (updating it on difference) and pre-empts
`Last-Modified`; otherwise the `Last-Modified` block runs. -/
def evalValidators (response : Response) (wh : WatchHeaders) :
    Option Bool × WatchHeaders :=
  match headerGet response.headers "ETag" with
  | some e =>
    if e = "" then evalLastModified response wh
    else if some e = wh.ifNoneMatch then (some false, wh)
    else (some true, { wh with ifNoneMatch := some e })
  | none => evalLastModified response wh

/-- Source lines 246-254: the final return.  `'not-modified'` is produced
only when change was explicitly ruled out AND a response object from this
cycle exists; otherwise the content variant is returned. -/
def finalize (arrayBuffer : Option String) (resolvedInput : ResolvedInput)
    (hasChanged : Option Bool) (response : Option Response) : SpecResult :=
  match hasChanged, response with
  | some false, some r => SpecResult.specError SpecErrorTag.notModified r
  | _, _ => SpecResult.specResponse arrayBuffer resolvedInput

/-- Source lines 163-238 followed by the final return: the GET fetch.
Issues the GET, maps transport failure and status ≥ 300 and non-ok status
to `'not-ok'`, reads the buffer, and — only when validators left the
change status undetermined — compares the decoded content with
`watch.lastValue` and unconditionally stores the new content. -/
def getPhase (fetchOptions : RequestInit) (resolvedInput : ResolvedInput)
    (transport : Transport) (watch : WatchValues) (hasChanged : Option Bool)
    (sent : List SentRequest) :
    SpecResult × WatchValues × List SentRequest :=
  let sent1 := sent ++ [getRequest fetchOptions]
  match transport.getResult with
  | SendResult.failure message =>
    (SpecResult.specError SpecErrorTag.notOk (errorResponse message),
      watch, sent1)
  | SendResult.success response =>
    if 300 ≤ response.status then
      (SpecResult.specError SpecErrorTag.notOk response, watch, sent1)
    else if response.ok = false then
      (SpecResult.specError SpecErrorTag.notOk response, watch, sent1)
    else
      let arrayBuffer := some (response.body.getD "")
      if hasChanged = none then
        let content := response.body.getD ""
        let changed : Option Bool :=
          if watch.lastValue = some content then some false else some true
        (finalize arrayBuffer resolvedInput changed (some response),
          { watch with lastValue := some content }, sent1)
      else
        (finalize arrayBuffer resolvedInput hasChanged (some response),
          watch, sent1)

/-- Embedding of `getSpec` (source lines 28-255).  For a URL input it runs
the optional HEAD probe (skipped on a falsy `lastValue` or when HEAD
support is known false) and then, unless short-circuited, the GET fetch.
For a non-URL input it touches only `lastValue` and issues no transport
call.  Returns the result, the updated watch state, and the trace of
issued transport calls. -/
def getSpec (fetchOptions : RequestInit) (resolvedInput : ResolvedInput)
    (transport : Transport) (watch : WatchValues) :
    SpecResult × WatchValues × List SentRequest :=
  match resolvedInput with
  | ResolvedInput.url _ =>
    if truthy watch.lastValue = true ∧
        watch.isHeadMethodSupported ≠ some false then
      let sent : List SentRequest := [headRequest fetchOptions watch]
      match transport.headResult with
      | SendResult.failure message =>
        (SpecResult.specError SpecErrorTag.notOk (errorResponse message),
          watch, sent)
      | SendResult.success response =>
        if 300 ≤ response.status then
          (SpecResult.specError SpecErrorTag.notOk response, watch, sent)
        else if response.ok = false ∧
            watch.isHeadMethodSupported = some true then
          (SpecResult.specError SpecErrorTag.notOk response, watch, sent)
        else
          let watch1 := if watch.isHeadMethodSupported = none
            then { watch with isHeadMethodSupported := some response.ok }
            else watch
          if response.status = 304 then
            (SpecResult.specError SpecErrorTag.notModified response,
              watch1, sent)
          else
            let vres := evalValidators response watch1.headers
            let watch2 := { watch1 with headers := vres.2 }
            if vres.1 = some false then
              (SpecResult.specError SpecErrorTag.notModified response,
                watch2, sent)
            else
              getPhase fetchOptions resolvedInput transport watch2 vres.1
                sent
    else
      getPhase fetchOptions resolvedInput transport watch none []
  | _ =>
    let lastValue := if truthy watch.lastValue = true then watch.lastValue
      else some resolvedInput.type
    let watch1 := { watch with lastValue := lastValue }
    let hasChanged : Option Bool :=
      if truthy lastValue = true then some false else none
    (finalize none resolvedInput hasChanged none, watch1, [])

/-- Whether a trace contains a HEAD-site request. -/
def hasHeadRequest (t : List SentRequest) : Bool :=
  t.any (fun e => e.phase == Phase.head)

/-- Whether a trace contains a GET-site request. -/
def hasGetRequest (t : List SentRequest) : Bool :=
  t.any (fun e => e.phase == Phase.get)

/-- Watch state after a sequence of polls of the same source, one scripted
transport per poll. -/
def pollSteps (fetchOptions : RequestInit) (resolvedInput : ResolvedInput)
    (transports : List Transport) (watch : WatchValues) : WatchValues :=
  transports.foldl
    (fun w tr => (getSpec fetchOptions resolvedInput tr w).2.1) watch

/-! ## Helper lemmas -/

theorem Response.ok_status_lt {r : Response} (h : r.ok = true) :
    r.status < 300 := by
  unfold Response.ok at h
  simp only [decide_eq_true_eq] at h
  omega

theorem getPhase_trace (fo : RequestInit) (ri : ResolvedInput)
    (tr : Transport) (w : WatchValues) (hc : Option Bool)
    (sent : List SentRequest) :
    (getPhase fo ri tr w hc sent).2.2 = sent ++ [getRequest fo] := by
  unfold getPhase
  cases tr.getResult <;> (simp only []; try split_ifs) <;> rfl

theorem getPhase_isHead (fo : RequestInit) (ri : ResolvedInput)
    (tr : Transport) (w : WatchValues) (hc : Option Bool)
    (sent : List SentRequest) :
    (getPhase fo ri tr w hc sent).2.1.isHeadMethodSupported =
      w.isHeadMethodSupported := by
  unfold getPhase
  cases tr.getResult <;> (simp only []; try split_ifs) <;> rfl

theorem getPhase_headers (fo : RequestInit) (ri : ResolvedInput)
    (tr : Transport) (w : WatchValues) (hc : Option Bool)
    (sent : List SentRequest) :
    (getPhase fo ri tr w hc sent).2.1.headers = w.headers := by
  unfold getPhase
  cases tr.getResult <;> (simp only []; try split_ifs) <;> rfl

theorem getPhase_ok_none {tr : Transport} {g : Response}
    (fo : RequestInit) (ri : ResolvedInput) (w : WatchValues)
    (sent : List SentRequest)
    (hr : tr.getResult = SendResult.success g) (hok : g.ok = true) :
    getPhase fo ri tr w none sent =
      (finalize (some (g.body.getD "")) ri
        (if w.lastValue = some (g.body.getD "") then some false
          else some true) (some g),
      { w with lastValue := some (g.body.getD "") },
      sent ++ [getRequest fo]) := by
  have hlt := Response.ok_status_lt hok
  unfold getPhase
  rw [hr]
  simp only [hok]
  rw [if_neg (by omega)]
  simp

theorem getPhase_ok_some {tr : Transport} {g : Response} {b : Bool}
    (fo : RequestInit) (ri : ResolvedInput) (w : WatchValues)
    (sent : List SentRequest)
    (hr : tr.getResult = SendResult.success g) (hok : g.ok = true) :
    getPhase fo ri tr w (some b) sent =
      (finalize (some (g.body.getD "")) ri (some b) (some g), w,
        sent ++ [getRequest fo]) := by
  have hlt := Response.ok_status_lt hok
  unfold getPhase
  rw [hr]
  simp only [hok]
  rw [if_neg (by omega)]
  simp

theorem getSpec_url_noprobe {w : WatchValues}
    (fo : RequestInit) (p : String) (tr : Transport)
    (h : ¬(truthy w.lastValue = true ∧
      w.isHeadMethodSupported ≠ some false)) :
    getSpec fo (ResolvedInput.url p) tr w =
      getPhase fo (ResolvedInput.url p) tr w none [] := by
  unfold getSpec
  rw [if_neg h]

theorem probe_trace_head {w : WatchValues}
    (fo : RequestInit) (p : String) (tr : Transport)
    (h1 : truthy w.lastValue = true)
    (h2 : w.isHeadMethodSupported ≠ some false) :
    hasHeadRequest (getSpec fo (ResolvedInput.url p) tr w).2.2 = true := by
  unfold getSpec
  rw [if_pos ⟨h1, h2⟩]
  cases htr : tr.headResult <;>
    simp only [] <;>
    first
    | (split_ifs <;>
        simp [hasHeadRequest, headRequest, getPhase_trace, List.any_append])
    | simp [hasHeadRequest, headRequest]

/-! ## Claim theorems -/

/-- C1 (counterexample): with a File input and the watch state produced by
the first call (`lastValue = some "file"`), a subsequent `getSpec` call
returns the content variant again — not the `'not-modified'` error the
claim requires — with no transport call on either call. -/
theorem c1_counterexample :
    (getSpec {} (ResolvedInput.file "a")
      ⟨SendResult.failure "x", SendResult.failure "x"⟩
      ((getSpec {} (ResolvedInput.file "a")
        ⟨SendResult.failure "x", SendResult.failure "x"⟩ {}).2.1)).1 =
      SpecResult.specResponse none (ResolvedInput.file "a") ∧
    (getSpec {} (ResolvedInput.file "a")
      ⟨SendResult.failure "x", SendResult.failure "x"⟩
      ((getSpec {} (ResolvedInput.file "a")
        ⟨SendResult.failure "x", SendResult.failure "x"⟩ {}).2.1)).1.isNotModified
      = false ∧
    ((getSpec {} (ResolvedInput.file "a")
      ⟨SendResult.failure "x", SendResult.failure "x"⟩ {}).2.1).lastValue =
      some "file" ∧
    (getSpec {} (ResolvedInput.file "a")
      ⟨SendResult.failure "x", SendResult.failure "x"⟩
      ((getSpec {} (ResolvedInput.file "a")
        ⟨SendResult.failure "x", SendResult.failure "x"⟩ {}).2.1)).2.2 =
      [] := by
  decide

/-- C1 (amended): for a non-URL resolved input (File or Raw), every call —
first and subsequent alike — returns the content variant with no buffer
and makes no transport call; the first call sets `lastValue` to the
variant-kind marker and later calls keep it. -/
theorem c1_non_url_always_content (fo : RequestInit) (tr : Transport)
    (w : WatchValues) (p d : String) :
    getSpec fo (ResolvedInput.file p) tr w =
      (SpecResult.specResponse none (ResolvedInput.file p),
        { w with lastValue := if truthy w.lastValue = true then w.lastValue
            else some "file" }, []) ∧
    getSpec fo (ResolvedInput.raw d) tr w =
      (SpecResult.specResponse none (ResolvedInput.raw d),
        { w with lastValue := if truthy w.lastValue = true then w.lastValue
            else some "raw" }, []) := by
  constructor <;>
  · unfold getSpec
    simp only [ResolvedInput.type]
    by_cases h : truthy w.lastValue = true
    · simp [h, finalize]
    · simp [h, finalize, truthy]

/-- C2 (counterexample): a first HEAD probe answered with status 404
returns `'not-ok'` but leaves `isHeadMethodSupported` unset (the
`status >= 300` guard returns before the flag is assigned), and the next
call with that same state issues another HEAD probe — contradicting the
claim that the flag becomes `false` and probing stops. -/
theorem c2_counterexample :
    (getSpec {} (ResolvedInput.url "u")
      ⟨SendResult.success ⟨404, [], none⟩, SendResult.failure "g"⟩
      { headers := {}, isHeadMethodSupported := none,
        lastValue := some "v" }).1 =
      SpecResult.specError SpecErrorTag.notOk ⟨404, [], none⟩ ∧
    ((getSpec {} (ResolvedInput.url "u")
      ⟨SendResult.success ⟨404, [], none⟩, SendResult.failure "g"⟩
      { headers := {}, isHeadMethodSupported := none,
        lastValue := some "v" }).2.1).isHeadMethodSupported = none ∧
    hasHeadRequest (getSpec {} (ResolvedInput.url "u")
      ⟨SendResult.success ⟨404, [], none⟩, SendResult.failure "g"⟩
      ((getSpec {} (ResolvedInput.url "u")
        ⟨SendResult.success ⟨404, [], none⟩, SendResult.failure "g"⟩
        { headers := {}, isHeadMethodSupported := none,
          lastValue := some "v" }).2.1)).2.2 = true := by
  decide

/-- C2 (amended): when the first HEAD probe (flag still unknown) is
answered with status 404, the outcome is `'not-ok'`, the watch state —
including `isHeadMethodSupported` — is left entirely unchanged, and a
later call with that state still issues a HEAD probe. -/
theorem c2_head_status_404 (fo : RequestInit) (p : String)
    (tr tr2 : Transport) (w : WatchValues) (r : Response)
    (hlv : truthy w.lastValue = true)
    (hsup : w.isHeadMethodSupported = none)
    (hr : tr.headResult = SendResult.success r)
    (hst : r.status = 404) :
    getSpec fo (ResolvedInput.url p) tr w =
      (SpecResult.specError SpecErrorTag.notOk r, w, [headRequest fo w]) ∧
    hasHeadRequest (getSpec fo (ResolvedInput.url p) tr2 w).2.2 = true := by
  have h2 : w.isHeadMethodSupported ≠ some false := by
    rw [hsup]
    simp
  refine ⟨?_, probe_trace_head fo p tr2 hlv h2⟩
  simp only [getSpec]
  rw [if_pos ⟨hlv, h2⟩, hr]
  simp only []
  rw [if_pos (show 300 ≤ r.status by omega)]

/-- C2 (witness): the amended theorem applied at a concrete 404 probe. -/
theorem c2_head_status_404_witness :
    getSpec {} (ResolvedInput.url "u")
      ⟨SendResult.success ⟨404, [], none⟩, SendResult.failure "g"⟩
      { headers := {}, isHeadMethodSupported := none,
        lastValue := some "v" } =
      (SpecResult.specError SpecErrorTag.notOk ⟨404, [], none⟩,
        { headers := {}, isHeadMethodSupported := none,
          lastValue := some "v" },
        [headRequest {}
          { headers := {}, isHeadMethodSupported := none,
            lastValue := some "v" }]) ∧
    hasHeadRequest (getSpec {} (ResolvedInput.url "u")
      ⟨SendResult.failure "h", SendResult.failure "g"⟩
      { headers := {}, isHeadMethodSupported := none,
        lastValue := some "v" }).2.2 = true :=
  c2_head_status_404 {} "u"
    ⟨SendResult.success ⟨404, [], none⟩, SendResult.failure "g"⟩
    ⟨SendResult.failure "h", SendResult.failure "g"⟩
    { headers := {}, isHeadMethodSupported := none, lastValue := some "v" }
    ⟨404, [], none⟩ (by decide) (by decide) rfl rfl

/-- C3 (code-bug evaluation): a HEAD probe answered with status exactly
304 produces the `'not-ok'` outcome, not `'not-modified'`: the
`status >= 300` guard (source line 84) returns before the dedicated
`status === 304` branch (source line 125), which is unreachable.  This
holds both when HEAD support is still unknown and when it was recorded as
supported. -/
theorem c3_head_304_yields_not_ok :
    getSpec {} (ResolvedInput.url "u")
      ⟨SendResult.success ⟨304, [], none⟩, SendResult.failure "g"⟩
      { headers := {}, isHeadMethodSupported := none,
        lastValue := some "v" } =
      (SpecResult.specError SpecErrorTag.notOk ⟨304, [], none⟩,
        { headers := {}, isHeadMethodSupported := none,
          lastValue := some "v" },
        [headRequest {}
          { headers := {}, isHeadMethodSupported := none,
            lastValue := some "v" }]) ∧
    getSpec {} (ResolvedInput.url "u")
      ⟨SendResult.success ⟨304, [], none⟩, SendResult.failure "g"⟩
      { headers := {}, isHeadMethodSupported := some true,
        lastValue := some "v" } =
      (SpecResult.specError SpecErrorTag.notOk ⟨304, [], none⟩,
        { headers := {}, isHeadMethodSupported := some true,
          lastValue := some "v" },
        [headRequest {}
          { headers := {}, isHeadMethodSupported := some true,
            lastValue := some "v" }]) := by
  decide

theorem evalValidators_unchanged {r : Response} {wh : WatchHeaders}
    (hval :
      (∃ e, headerGet r.headers "ETag" = some e ∧ e ≠ "" ∧
        wh.ifNoneMatch = some e) ∨
      ((headerGet r.headers "ETag" = none ∨
          headerGet r.headers "ETag" = some "") ∧
        ∃ m, headerGet r.headers "Last-Modified" = some m ∧ m ≠ "" ∧
          wh.ifModifiedSince = some m)) :
    evalValidators r wh = (some false, wh) := by
  rcases hval with ⟨e, he, hne, hst⟩ | ⟨het, m, hm, hmne, hms⟩
  · unfold evalValidators
    rw [he]
    simp only []
    rw [if_neg hne, if_pos (by rw [hst])]
  · have hlm : evalLastModified r wh = (some false, wh) := by
      unfold evalLastModified
      rw [hm]
      simp only []
      rw [if_neg hmne, if_pos (by rw [hms])]
    unfold evalValidators
    rcases het with h | h
    · rw [h, hlm]
    · rw [h]
      simp only []
      simp [hlm]

theorem getSpec_isHead_mono (fo : RequestInit) (ri : ResolvedInput)
    (tr : Transport) (w : WatchValues) (b : Bool)
    (hb : w.isHeadMethodSupported = some b) :
    (getSpec fo ri tr w).2.1.isHeadMethodSupported = some b := by
  cases ri with
  | url p =>
    simp only [getSpec]
    by_cases hcond : truthy w.lastValue = true ∧
      w.isHeadMethodSupported ≠ some false
    · rw [if_pos hcond]
      cases htr : tr.headResult with
      | failure m => exact hb
      | success r =>
        simp only []
        rw [if_neg (show ¬w.isHeadMethodSupported = none by rw [hb]; simp)]
        split_ifs with h1 h2 h3 h4 <;>
          simp_all [getPhase_isHead]
    · rw [if_neg hcond, getPhase_isHead]
      exact hb
  | file p => simpa [getSpec] using hb
  | raw d => simpa [getSpec] using hb

/-- C4: for a URL input, when the HEAD probe succeeds with a usable
response and a response validator is present (truthy) and equal to the
stored one — an `ETag` matching the stored `If-None-Match`, or, with no
truthy `ETag`, a `Last-Modified` matching the stored `If-Modified-Since` —
`getSpec` returns `'not-modified'` with that response immediately, the
stored validators are unchanged, and no GET request is issued: the trace
is exactly the single HEAD probe. -/
theorem c4_validator_unchanged_skips_get (fo : RequestInit) (p : String)
    (tr : Transport) (w : WatchValues) (r : Response)
    (hlv : truthy w.lastValue = true)
    (hsup : w.isHeadMethodSupported ≠ some false)
    (hr : tr.headResult = SendResult.success r)
    (hok : r.ok = true)
    (hval :
      (∃ e, headerGet r.headers "ETag" = some e ∧ e ≠ "" ∧
        w.headers.ifNoneMatch = some e) ∨
      ((headerGet r.headers "ETag" = none ∨
          headerGet r.headers "ETag" = some "") ∧
        ∃ m, headerGet r.headers "Last-Modified" = some m ∧ m ≠ "" ∧
          w.headers.ifModifiedSince = some m)) :
    (getSpec fo (ResolvedInput.url p) tr w).1 =
      SpecResult.specError SpecErrorTag.notModified r ∧
    (getSpec fo (ResolvedInput.url p) tr w).2.1.headers = w.headers ∧
    (getSpec fo (ResolvedInput.url p) tr w).2.2 = [headRequest fo w] ∧
    hasGetRequest (getSpec fo (ResolvedInput.url p) tr w).2.2 = false := by
  have hlt := Response.ok_status_lt hok
  have h304 : r.status ≠ 304 := by omega
  have hev : evalValidators r w.headers = (some false, w.headers) :=
    evalValidators_unchanged hval
  have key : getSpec fo (ResolvedInput.url p) tr w =
      (SpecResult.specError SpecErrorTag.notModified r,
        { headers := w.headers,
          isHeadMethodSupported :=
            if w.isHeadMethodSupported = none then some r.ok
            else w.isHeadMethodSupported,
          lastValue := w.lastValue },
        [headRequest fo w]) := by
    simp only [getSpec]
    rw [if_pos ⟨hlv, hsup⟩, hr]
    simp only []
    rw [if_neg (by omega), if_neg (by simp [hok])]
    by_cases hh : w.isHeadMethodSupported = none <;>
      simp [hh, hev, h304]
  rw [key]
  simp [hasGetRequest, headRequest]

/-- C4 (witness): the theorem applied to a probe whose `ETag` equals the
stored `If-None-Match`. -/
theorem c4_validator_unchanged_skips_get_witness :
    (getSpec {} (ResolvedInput.url "u")
      ⟨SendResult.success ⟨200, [("ETag", "t1")], none⟩,
        SendResult.failure "g"⟩
      { headers := { ifNoneMatch := some "t1" },
        isHeadMethodSupported := none, lastValue := some "v" }).1 =
      SpecResult.specError SpecErrorTag.notModified
        ⟨200, [("ETag", "t1")], none⟩ ∧
    (getSpec {} (ResolvedInput.url "u")
      ⟨SendResult.success ⟨200, [("ETag", "t1")], none⟩,
        SendResult.failure "g"⟩
      { headers := { ifNoneMatch := some "t1" },
        isHeadMethodSupported := none, lastValue := some "v" }).2.1.headers =
      ({ ifNoneMatch := some "t1" } : WatchHeaders) ∧
    (getSpec {} (ResolvedInput.url "u")
      ⟨SendResult.success ⟨200, [("ETag", "t1")], none⟩,
        SendResult.failure "g"⟩
      { headers := { ifNoneMatch := some "t1" },
        isHeadMethodSupported := none, lastValue := some "v" }).2.2 =
      [headRequest {}
        { headers := { ifNoneMatch := some "t1" },
          isHeadMethodSupported := none, lastValue := some "v" }] ∧
    hasGetRequest (getSpec {} (ResolvedInput.url "u")
      ⟨SendResult.success ⟨200, [("ETag", "t1")], none⟩,
        SendResult.failure "g"⟩
      { headers := { ifNoneMatch := some "t1" },
        isHeadMethodSupported := none, lastValue := some "v" }).2.2 =
      false :=
  c4_validator_unchanged_skips_get {} "u"
    ⟨SendResult.success ⟨200, [("ETag", "t1")], none⟩, SendResult.failure "g"⟩
    { headers := { ifNoneMatch := some "t1" },
      isHeadMethodSupported := none, lastValue := some "v" }
    ⟨200, [("ETag", "t1")], none⟩
    (by decide) (by decide) rfl (by decide)
    (Or.inl ⟨"t1", by decide, by decide, by decide⟩)

/-- C5: once `isHeadMethodSupported` is `false` at the start of a call, a
single call keeps it `false` and issues no HEAD request; more generally,
once the flag holds any boolean it is never reassigned (it is only set
when unknown); and over any sequence of polls starting from a `false`
flag, it stays `false`. -/
theorem c5_head_unsupported_is_permanent :
    (∀ (fo : RequestInit) (ri : ResolvedInput) (tr : Transport)
        (w : WatchValues),
      w.isHeadMethodSupported = some false →
        (getSpec fo ri tr w).2.1.isHeadMethodSupported = some false ∧
        hasHeadRequest (getSpec fo ri tr w).2.2 = false) ∧
    (∀ (fo : RequestInit) (ri : ResolvedInput) (tr : Transport)
        (w : WatchValues) (b : Bool),
      w.isHeadMethodSupported = some b →
        (getSpec fo ri tr w).2.1.isHeadMethodSupported = some b) ∧
    (∀ (fo : RequestInit) (ri : ResolvedInput) (trs : List Transport)
        (w : WatchValues),
      w.isHeadMethodSupported = some false →
        (pollSteps fo ri trs w).isHeadMethodSupported = some false) := by
  refine ⟨?_, fun fo ri tr w b hb => getSpec_isHead_mono fo ri tr w b hb, ?_⟩
  · intro fo ri tr w hf
    refine ⟨getSpec_isHead_mono fo ri tr w false hf, ?_⟩
    cases ri with
    | url p =>
      rw [getSpec_url_noprobe fo p tr (by simp [hf]), getPhase_trace]
      simp [hasHeadRequest, getRequest]
    | file p => simp [getSpec, hasHeadRequest]
    | raw d => simp [getSpec, hasHeadRequest]
  · intro fo ri trs w hf
    induction trs generalizing w with
    | nil => exact hf
    | cons tr rest ih =>
      rw [pollSteps]
      simp only [List.foldl_cons]
      exact ih _ (getSpec_isHead_mono fo ri tr w false hf)

/-- C5 (witness): the three parts applied at concrete inputs with the flag
known `false`. -/
theorem c5_head_unsupported_is_permanent_witness :
    ((getSpec {} (ResolvedInput.url "u")
      ⟨SendResult.failure "h", SendResult.success ⟨200, [], some "b"⟩⟩
      { headers := {}, isHeadMethodSupported := some false,
        lastValue := some "v" }).2.1.isHeadMethodSupported = some false ∧
      hasHeadRequest (getSpec {} (ResolvedInput.url "u")
        ⟨SendResult.failure "h", SendResult.success ⟨200, [], some "b"⟩⟩
        { headers := {}, isHeadMethodSupported := some false,
          lastValue := some "v" }).2.2 = false) ∧
    (getSpec {} (ResolvedInput.url "u")
      ⟨SendResult.failure "h", SendResult.success ⟨200, [], some "b"⟩⟩
      { headers := {}, isHeadMethodSupported := some true,
        lastValue := some "v" }).2.1.isHeadMethodSupported = some true ∧
    (pollSteps {} (ResolvedInput.url "u")
      [⟨SendResult.failure "h", SendResult.success ⟨200, [], some "b"⟩⟩,
        ⟨SendResult.failure "h", SendResult.failure "g"⟩]
      { headers := {}, isHeadMethodSupported := some false,
        lastValue := some "v" }).isHeadMethodSupported = some false :=
  ⟨c5_head_unsupported_is_permanent.1 {} (ResolvedInput.url "u")
      ⟨SendResult.failure "h", SendResult.success ⟨200, [], some "b"⟩⟩
      { headers := {}, isHeadMethodSupported := some false,
        lastValue := some "v" } rfl,
    c5_head_unsupported_is_permanent.2.1 {} (ResolvedInput.url "u")
      ⟨SendResult.failure "h", SendResult.success ⟨200, [], some "b"⟩⟩
      { headers := {}, isHeadMethodSupported := some true,
        lastValue := some "v" } true rfl,
    c5_head_unsupported_is_permanent.2.2 {} (ResolvedInput.url "u")
      [⟨SendResult.failure "h", SendResult.success ⟨200, [], some "b"⟩⟩,
        ⟨SendResult.failure "h", SendResult.failure "g"⟩]
      { headers := {}, isHeadMethodSupported := some false,
        lastValue := some "v" } rfl⟩

/-- C6: on the very first call for a URL source (`lastValue` unset) with
no caller method override, exactly one transport call is issued and it is
the GET fetch carrying the caller headers — no HEAD request is ever
issued, whatever the transport answers. -/
theorem c6_first_poll_single_get (fo : RequestInit) (p : String)
    (tr : Transport) (w : WatchValues)
    (hlv : w.lastValue = none) (hm : fo.method = none) :
    (getSpec fo (ResolvedInput.url p) tr w).2.2 =
      [{ phase := Phase.get, method := "GET", headers := fo.headers }] := by
  rw [getSpec_url_noprobe fo p tr (by simp [truthy, hlv]), getPhase_trace]
  simp [getRequest, hm]

/-- C6 (witness): the theorem applied at a concrete first poll. -/
theorem c6_first_poll_single_get_witness :
    (getSpec { headers := [("Accept", "a")] } (ResolvedInput.url "u")
      ⟨SendResult.failure "h", SendResult.success ⟨200, [], some "b"⟩⟩
      { headers := {}, isHeadMethodSupported := none,
        lastValue := none }).2.2 =
      [{ phase := Phase.get, method := "GET",
          headers := [("Accept", "a")] }] :=
  c6_first_poll_single_get { headers := [("Accept", "a")] } "u"
    ⟨SendResult.failure "h", SendResult.success ⟨200, [], some "b"⟩⟩
    { headers := {}, isHeadMethodSupported := none, lastValue := none }
    rfl rfl

theorem evalValidators_none {r : Response} (wh : WatchHeaders)
    (het : headerGet r.headers "ETag" = none)
    (hlm : headerGet r.headers "Last-Modified" = none) :
    evalValidators r wh = (none, wh) := by
  unfold evalValidators
  rw [het]
  simp only []
  unfold evalLastModified
  rw [hlm]

/-- C7: validator strategies are consulted in strict priority order.  With
a truthy `ETag` on the probe response, the change verdict and header
update come from the `ETag` comparison alone and the stored
`If-Modified-Since` is untouched; without a truthy `ETag`, the verdict is
exactly the `Last-Modified` block's and the stored `If-None-Match` is
untouched; and whenever the validators produced a verdict (`some b`), the
GET phase performs no content comparison — `lastValue` is left unchanged. -/
theorem c7_validator_priority :
    (∀ (r : Response) (wh : WatchHeaders) (e : String),
      headerGet r.headers "ETag" = some e → e ≠ "" →
        evalValidators r wh =
          (if some e = wh.ifNoneMatch then (some false, wh)
            else (some true, { wh with ifNoneMatch := some e })) ∧
        (evalValidators r wh).2.ifModifiedSince = wh.ifModifiedSince) ∧
    (∀ (r : Response) (wh : WatchHeaders),
      (headerGet r.headers "ETag" = none ∨
        headerGet r.headers "ETag" = some "") →
        evalValidators r wh = evalLastModified r wh ∧
        (evalValidators r wh).2.ifNoneMatch = wh.ifNoneMatch) ∧
    (∀ (fo : RequestInit) (ri : ResolvedInput) (tr : Transport)
        (w : WatchValues) (b : Bool) (sent : List SentRequest),
      (getPhase fo ri tr w (some b) sent).2.1.lastValue = w.lastValue) := by
  refine ⟨?_, ?_, ?_⟩
  · intro r wh e he hne
    have h1 : evalValidators r wh =
        (if some e = wh.ifNoneMatch then (some false, wh)
          else (some true, { wh with ifNoneMatch := some e })) := by
      unfold evalValidators
      rw [he]
      simp only []
      rw [if_neg hne]
    refine ⟨h1, ?_⟩
    rw [h1]
    split_ifs <;> rfl
  · intro r wh h
    have h1 : evalValidators r wh = evalLastModified r wh := by
      rcases h with h | h
      · unfold evalValidators
        rw [h]
      · unfold evalValidators
        rw [h]
        simp only []
        simp
    refine ⟨h1, ?_⟩
    rw [h1]
    unfold evalLastModified
    cases hlm : headerGet r.headers "Last-Modified" with
    | none => rfl
    | some lm =>
      simp only []
      split_ifs <;> rfl
  · intro fo ri tr w b sent
    unfold getPhase
    cases htr : tr.getResult <;> (simp only []; try split_ifs) <;> simp_all

/-- C7 (witness): the three parts applied at concrete inputs — a response
carrying both validators (decided by `ETag` alone), a response with only
`Last-Modified`, and a GET phase entered with a validator verdict. -/
theorem c7_validator_priority_witness :
    (evalValidators ⟨200, [("ETag", "t2"), ("Last-Modified", "d2")], none⟩
        { ifNoneMatch := some "t1", ifModifiedSince := some "d1" } =
      (if (some "t2" : Option String) = some "t1"
        then (some false,
          { ifNoneMatch := some "t1", ifModifiedSince := some "d1" })
        else (some true,
          { ifNoneMatch := some "t2", ifModifiedSince := some "d1" })) ∧
      (evalValidators ⟨200, [("ETag", "t2"), ("Last-Modified", "d2")], none⟩
        { ifNoneMatch := some "t1",
          ifModifiedSince := some "d1" }).2.ifModifiedSince = some "d1") ∧
    (evalValidators ⟨200, [("Last-Modified", "d2")], none⟩
        { ifNoneMatch := some "t1", ifModifiedSince := some "d1" } =
      evalLastModified ⟨200, [("Last-Modified", "d2")], none⟩
        { ifNoneMatch := some "t1", ifModifiedSince := some "d1" } ∧
      (evalValidators ⟨200, [("Last-Modified", "d2")], none⟩
        { ifNoneMatch := some "t1",
          ifModifiedSince := some "d1" }).2.ifNoneMatch = some "t1") ∧
    (getPhase {} (ResolvedInput.url "u")
      ⟨SendResult.failure "h", SendResult.success ⟨200, [], some "b"⟩⟩
      { headers := {}, isHeadMethodSupported := some true,
        lastValue := some "old" } (some true) []).2.1.lastValue =
      some "old" :=
  ⟨c7_validator_priority.1
      ⟨200, [("ETag", "t2"), ("Last-Modified", "d2")], none⟩
      { ifNoneMatch := some "t1", ifModifiedSince := some "d1" }
      "t2" rfl (by decide),
    c7_validator_priority.2.1 ⟨200, [("Last-Modified", "d2")], none⟩
      { ifNoneMatch := some "t1", ifModifiedSince := some "d1" }
      (Or.inl rfl),
    c7_validator_priority.2.2 {} (ResolvedInput.url "u")
      ⟨SendResult.failure "h", SendResult.success ⟨200, [], some "b"⟩⟩
      { headers := {}, isHeadMethodSupported := some true,
        lastValue := some "old" } true []⟩

theorem getSpec_probe_novalidators {tr : Transport} {rh : Response}
    (fo : RequestInit) (p : String) (w : WatchValues)
    (hlv : truthy w.lastValue = true)
    (hsup : w.isHeadMethodSupported ≠ some false)
    (hr : tr.headResult = SendResult.success rh)
    (hok : rh.ok = true)
    (het : headerGet rh.headers "ETag" = none)
    (hlm : headerGet rh.headers "Last-Modified" = none) :
    getSpec fo (ResolvedInput.url p) tr w =
      getPhase fo (ResolvedInput.url p) tr
        { headers := w.headers,
          isHeadMethodSupported :=
            if w.isHeadMethodSupported = none then some rh.ok
            else w.isHeadMethodSupported,
          lastValue := w.lastValue } none [headRequest fo w] := by
  have hlt := Response.ok_status_lt hok
  have h304 : rh.status ≠ 304 := by omega
  simp only [getSpec]
  rw [if_pos ⟨hlv, hsup⟩, hr]
  simp only []
  rw [if_neg (by omega), if_neg (by simp [hok])]
  by_cases hh : w.isHeadMethodSupported = none <;>
    simp [hh, evalValidators_none _ het hlm, h304]

/-- C8: the GET content fallback stores the decoded body into `lastValue`
unconditionally; consequently, for a URL source whose server supplies no
validators, two consecutive polls with identical GET bodies yield the
content variant then `'not-modified'`, and two polls with differing bodies
yield the content variant both times with `lastValue` tracking the most
recent body. -/
theorem c8_content_fallback :
    (∀ (fo : RequestInit) (ri : ResolvedInput) (tr : Transport)
        (w : WatchValues) (sent : List SentRequest) (g : Response),
      tr.getResult = SendResult.success g → g.ok = true →
        (getPhase fo ri tr w none sent).2.1.lastValue =
          some (g.body.getD "")) ∧
    (∀ (fo : RequestInit) (p b : String) (tr1 tr2 : Transport)
        (w0 : WatchValues) (g1 rh g2 : Response),
      w0.lastValue = none → w0.isHeadMethodSupported = none →
      tr1.getResult = SendResult.success g1 → g1.ok = true →
      g1.body = some b → b ≠ "" →
      tr2.headResult = SendResult.success rh → rh.ok = true →
      headerGet rh.headers "ETag" = none →
      headerGet rh.headers "Last-Modified" = none →
      tr2.getResult = SendResult.success g2 → g2.ok = true →
      g2.body = some b →
        (getSpec fo (ResolvedInput.url p) tr1 w0).1 =
          SpecResult.specResponse (some b) (ResolvedInput.url p) ∧
        (getSpec fo (ResolvedInput.url p) tr1 w0).2.1.lastValue = some b ∧
        (getSpec fo (ResolvedInput.url p) tr2
          ((getSpec fo (ResolvedInput.url p) tr1 w0).2.1)).1 =
          SpecResult.specError SpecErrorTag.notModified g2) ∧
    (∀ (fo : RequestInit) (p b b2 : String) (tr1 tr2 : Transport)
        (w0 : WatchValues) (g1 rh g2 : Response),
      w0.lastValue = none → w0.isHeadMethodSupported = none →
      tr1.getResult = SendResult.success g1 → g1.ok = true →
      g1.body = some b → b ≠ "" →
      tr2.headResult = SendResult.success rh → rh.ok = true →
      headerGet rh.headers "ETag" = none →
      headerGet rh.headers "Last-Modified" = none →
      tr2.getResult = SendResult.success g2 → g2.ok = true →
      g2.body = some b2 → b2 ≠ b →
        (getSpec fo (ResolvedInput.url p) tr1 w0).1 =
          SpecResult.specResponse (some b) (ResolvedInput.url p) ∧
        (getSpec fo (ResolvedInput.url p) tr2
          ((getSpec fo (ResolvedInput.url p) tr1 w0).2.1)).1 =
          SpecResult.specResponse (some b2) (ResolvedInput.url p) ∧
        (getSpec fo (ResolvedInput.url p) tr2
          ((getSpec fo (ResolvedInput.url p) tr1 w0).2.1)).2.1.lastValue =
          some b2) := by
  refine ⟨?_, ?_, ?_⟩
  · intro fo ri tr w sent g hg hok
    rw [getPhase_ok_none fo ri w sent hg hok]
  · intro fo p b tr1 tr2 w0 g1 rh g2 hlv0 hsup0 hg1 hok1 hb1 hbne hrh
      hokh het hlm hg2 hok2 hb2
    have r1 : getSpec fo (ResolvedInput.url p) tr1 w0 =
        (SpecResult.specResponse (some b) (ResolvedInput.url p),
          { headers := w0.headers,
            isHeadMethodSupported := w0.isHeadMethodSupported,
            lastValue := some b }, [getRequest fo]) := by
      rw [getSpec_url_noprobe fo p tr1 (by simp [truthy, hlv0]),
        getPhase_ok_none fo _ w0 [] hg1 hok1, hb1]
      simp [hlv0, finalize]
    refine ⟨by rw [r1], by rw [r1], ?_⟩
    rw [r1]
    have e2 := getSpec_probe_novalidators fo p
      ({ headers := w0.headers,
         isHeadMethodSupported := w0.isHeadMethodSupported,
         lastValue := some b } : WatchValues)
      (by simp [truthy, hbne]) (by simp [hsup0]) hrh hokh het hlm
    rw [e2, getPhase_ok_none _ _ _ _ hg2 hok2, hb2]
    simp [hsup0, finalize]
  · intro fo p b b2 tr1 tr2 w0 g1 rh g2 hlv0 hsup0 hg1 hok1 hb1 hbne hrh
      hokh het hlm hg2 hok2 hb2 hne
    have r1 : getSpec fo (ResolvedInput.url p) tr1 w0 =
        (SpecResult.specResponse (some b) (ResolvedInput.url p),
          { headers := w0.headers,
            isHeadMethodSupported := w0.isHeadMethodSupported,
            lastValue := some b }, [getRequest fo]) := by
      rw [getSpec_url_noprobe fo p tr1 (by simp [truthy, hlv0]),
        getPhase_ok_none fo _ w0 [] hg1 hok1, hb1]
      simp [hlv0, finalize]
    refine ⟨by rw [r1], ?_, ?_⟩ <;>
    · rw [r1]
      have e2 := getSpec_probe_novalidators fo p
        ({ headers := w0.headers,
           isHeadMethodSupported := w0.isHeadMethodSupported,
           lastValue := some b } : WatchValues)
        (by simp [truthy, hbne]) (by simp [hsup0]) hrh hokh het hlm
      rw [e2, getPhase_ok_none _ _ _ _ hg2 hok2, hb2]
      simp [hsup0, finalize, Ne.symm hne]

/-- C8 (witness): the three parts at concrete inputs — a fallback store,
two identical-body polls, and two differing-body polls. -/
theorem c8_content_fallback_witness :
    (getPhase {} (ResolvedInput.url "u")
      ⟨SendResult.failure "h", SendResult.success ⟨200, [], some "s1"⟩⟩
      { headers := {}, isHeadMethodSupported := none,
        lastValue := some "s1" } none []).2.1.lastValue = some "s1" ∧
    ((getSpec {} (ResolvedInput.url "u")
      ⟨SendResult.failure "h", SendResult.success ⟨200, [], some "s1"⟩⟩
      { headers := {}, isHeadMethodSupported := none,
        lastValue := none }).1 =
      SpecResult.specResponse (some "s1") (ResolvedInput.url "u") ∧
    (getSpec {} (ResolvedInput.url "u")
      ⟨SendResult.failure "h", SendResult.success ⟨200, [], some "s1"⟩⟩
      { headers := {}, isHeadMethodSupported := none,
        lastValue := none }).2.1.lastValue = some "s1" ∧
    (getSpec {} (ResolvedInput.url "u")
      ⟨SendResult.success ⟨200, [], none⟩,
        SendResult.success ⟨200, [], some "s1"⟩⟩
      ((getSpec {} (ResolvedInput.url "u")
        ⟨SendResult.failure "h", SendResult.success ⟨200, [], some "s1"⟩⟩
        { headers := {}, isHeadMethodSupported := none,
          lastValue := none }).2.1)).1 =
      SpecResult.specError SpecErrorTag.notModified
        ⟨200, [], some "s1"⟩) ∧
    ((getSpec {} (ResolvedInput.url "u")
      ⟨SendResult.success ⟨200, [], none⟩,
        SendResult.success ⟨200, [], some "s2"⟩⟩
      ((getSpec {} (ResolvedInput.url "u")
        ⟨SendResult.failure "h", SendResult.success ⟨200, [], some "s1"⟩⟩
        { headers := {}, isHeadMethodSupported := none,
          lastValue := none }).2.1)).1 =
      SpecResult.specResponse (some "s2") (ResolvedInput.url "u") ∧
    (getSpec {} (ResolvedInput.url "u")
      ⟨SendResult.success ⟨200, [], none⟩,
        SendResult.success ⟨200, [], some "s2"⟩⟩
      ((getSpec {} (ResolvedInput.url "u")
        ⟨SendResult.failure "h", SendResult.success ⟨200, [], some "s1"⟩⟩
        { headers := {}, isHeadMethodSupported := none,
          lastValue := none }).2.1)).2.1.lastValue = some "s2") :=
  ⟨c8_content_fallback.1 {} (ResolvedInput.url "u")
      ⟨SendResult.failure "h", SendResult.success ⟨200, [], some "s1"⟩⟩
      { headers := {}, isHeadMethodSupported := none,
        lastValue := some "s1" } [] ⟨200, [], some "s1"⟩ rfl (by decide),
    c8_content_fallback.2.1 {} "u" "s1"
      ⟨SendResult.failure "h", SendResult.success ⟨200, [], some "s1"⟩⟩
      ⟨SendResult.success ⟨200, [], none⟩,
        SendResult.success ⟨200, [], some "s1"⟩⟩
      { headers := {}, isHeadMethodSupported := none, lastValue := none }
      ⟨200, [], some "s1"⟩ ⟨200, [], none⟩ ⟨200, [], some "s1"⟩
      rfl rfl rfl (by decide) rfl (by decide) rfl (by decide) rfl rfl rfl
      (by decide) rfl,
    (c8_content_fallback.2.2 {} "u" "s1" "s2"
      ⟨SendResult.failure "h", SendResult.success ⟨200, [], some "s1"⟩⟩
      ⟨SendResult.success ⟨200, [], none⟩,
        SendResult.success ⟨200, [], some "s2"⟩⟩
      { headers := {}, isHeadMethodSupported := none, lastValue := none }
      ⟨200, [], some "s1"⟩ ⟨200, [], none⟩ ⟨200, [], some "s2"⟩
      rfl rfl rfl (by decide) rfl (by decide) rfl (by decide) rfl rfl rfl
      (by decide) rfl (by decide)).2⟩

/-- C9 (counterexample): a HEAD probe answered with a non-ok response
(status 100) while HEAD support is still unknown does not produce the
`'not-ok'` outcome: the call records the flag as `false` and proceeds to
the GET, here ending in the content variant — refuting the claim that
every non-ok response yields `NotOk`. -/
theorem c9_counterexample :
    Response.ok ⟨100, [], none⟩ = false ∧
    hasHeadRequest (getSpec {} (ResolvedInput.url "u")
      ⟨SendResult.success ⟨100, [], none⟩,
        SendResult.success ⟨200, [], some "y"⟩⟩
      { headers := {}, isHeadMethodSupported := none,
        lastValue := some "x" }).2.2 = true ∧
    (getSpec {} (ResolvedInput.url "u")
      ⟨SendResult.success ⟨100, [], none⟩,
        SendResult.success ⟨200, [], some "y"⟩⟩
      { headers := {}, isHeadMethodSupported := none,
        lastValue := some "x" }).1 =
      SpecResult.specResponse (some "y") (ResolvedInput.url "u") ∧
    (getSpec {} (ResolvedInput.url "u")
      ⟨SendResult.success ⟨100, [], none⟩,
        SendResult.success ⟨200, [], some "y"⟩⟩
      { headers := {}, isHeadMethodSupported := none,
        lastValue := some "x" }).2.1.isHeadMethodSupported = some false := by
  decide

/-- C9 (amended): failure mapping of `getSpec`.  A transport failure on
the HEAD probe, a probe response with status ≥ 300, and a non-ok sub-300
probe response while HEAD support was recorded `true` all yield `'not-ok'`
with a response; a non-ok sub-300 probe response while support was unknown
instead records the flag `false` and the call continues.  In the GET
phase, a transport failure, a status ≥ 300 and a non-ok status each yield
`'not-ok'` with a response. -/
theorem c9_failure_mapping :
    (∀ (fo : RequestInit) (p m : String) (tr : Transport)
        (w : WatchValues),
      truthy w.lastValue = true → w.isHeadMethodSupported ≠ some false →
      tr.headResult = SendResult.failure m →
        getSpec fo (ResolvedInput.url p) tr w =
          (SpecResult.specError SpecErrorTag.notOk (errorResponse m), w,
            [headRequest fo w])) ∧
    (∀ (fo : RequestInit) (p : String) (tr : Transport) (w : WatchValues)
        (r : Response),
      truthy w.lastValue = true → w.isHeadMethodSupported ≠ some false →
      tr.headResult = SendResult.success r → 300 ≤ r.status →
        getSpec fo (ResolvedInput.url p) tr w =
          (SpecResult.specError SpecErrorTag.notOk r, w,
            [headRequest fo w])) ∧
    (∀ (fo : RequestInit) (p : String) (tr : Transport) (w : WatchValues)
        (r : Response),
      truthy w.lastValue = true → tr.headResult = SendResult.success r →
      r.status < 300 → r.ok = false →
      w.isHeadMethodSupported = some true →
        getSpec fo (ResolvedInput.url p) tr w =
          (SpecResult.specError SpecErrorTag.notOk r, w,
            [headRequest fo w])) ∧
    (∀ (fo : RequestInit) (p : String) (tr : Transport) (w : WatchValues)
        (r : Response),
      truthy w.lastValue = true → tr.headResult = SendResult.success r →
      r.status < 300 → r.ok = false →
      w.isHeadMethodSupported = none →
        (getSpec fo (ResolvedInput.url p) tr w).2.1.isHeadMethodSupported =
          some false) ∧
    (∀ (fo : RequestInit) (ri : ResolvedInput) (m : String)
        (tr : Transport) (w : WatchValues) (hc : Option Bool)
        (sent : List SentRequest),
      tr.getResult = SendResult.failure m →
        getPhase fo ri tr w hc sent =
          (SpecResult.specError SpecErrorTag.notOk (errorResponse m), w,
            sent ++ [getRequest fo])) ∧
    (∀ (fo : RequestInit) (ri : ResolvedInput) (tr : Transport)
        (w : WatchValues) (hc : Option Bool) (sent : List SentRequest)
        (g : Response),
      tr.getResult = SendResult.success g →
      (300 ≤ g.status ∨ g.ok = false) →
        getPhase fo ri tr w hc sent =
          (SpecResult.specError SpecErrorTag.notOk g, w,
            sent ++ [getRequest fo])) := by
  refine ⟨?_, ?_, ?_, ?_, ?_, ?_⟩
  · intro fo p m tr w hlv hsup hr
    simp only [getSpec]
    rw [if_pos ⟨hlv, hsup⟩, hr]
  · intro fo p tr w r hlv hsup hr hst
    simp only [getSpec]
    rw [if_pos ⟨hlv, hsup⟩, hr]
    simp only []
    rw [if_pos hst]
  · intro fo p tr w r hlv hr hst hok hsome
    simp only [getSpec]
    rw [if_pos ⟨hlv, by rw [hsome]; simp⟩, hr]
    simp only []
    rw [if_neg (by omega), if_pos ⟨hok, hsome⟩]
  · intro fo p tr w r hlv hr hst hok hnone
    simp only [getSpec]
    rw [if_pos ⟨hlv, by rw [hnone]; simp⟩, hr]
    simp only []
    rw [if_neg (by omega),
      if_neg (by rw [hnone]; simp), if_pos hnone, hok]
    split_ifs with h1 h2 <;> simp_all [getPhase_isHead]
  · intro fo ri m tr w hc sent hr
    unfold getPhase
    rw [hr]
  · intro fo ri tr w hc sent g hr hbad
    unfold getPhase
    rw [hr]
    simp only []
    rcases hbad with h | h
    · rw [if_pos h]
    · rcases Nat.lt_or_ge g.status 300 with hlt | hge
      · rw [if_neg (by omega), if_pos h]
      · rw [if_pos hge]

/-- C9 (witness): the amended failure-mapping parts applied at concrete
inputs (probe transport failure, probe 500, non-ok probe with support
known and unknown, GET transport failure, GET 500). -/
theorem c9_failure_mapping_witness :
    getSpec {} (ResolvedInput.url "u")
      ⟨SendResult.failure "down", SendResult.failure "g"⟩
      { headers := {}, isHeadMethodSupported := none,
        lastValue := some "x" } =
      (SpecResult.specError SpecErrorTag.notOk (errorResponse "down"),
        { headers := {}, isHeadMethodSupported := none,
          lastValue := some "x" },
        [headRequest {}
          { headers := {}, isHeadMethodSupported := none,
            lastValue := some "x" }]) ∧
    getSpec {} (ResolvedInput.url "u")
      ⟨SendResult.success ⟨500, [], none⟩, SendResult.failure "g"⟩
      { headers := {}, isHeadMethodSupported := none,
        lastValue := some "x" } =
      (SpecResult.specError SpecErrorTag.notOk ⟨500, [], none⟩,
        { headers := {}, isHeadMethodSupported := none,
          lastValue := some "x" },
        [headRequest {}
          { headers := {}, isHeadMethodSupported := none,
            lastValue := some "x" }]) ∧
    getSpec {} (ResolvedInput.url "u")
      ⟨SendResult.success ⟨100, [], none⟩, SendResult.failure "g"⟩
      { headers := {}, isHeadMethodSupported := some true,
        lastValue := some "x" } =
      (SpecResult.specError SpecErrorTag.notOk ⟨100, [], none⟩,
        { headers := {}, isHeadMethodSupported := some true,
          lastValue := some "x" },
        [headRequest {}
          { headers := {}, isHeadMethodSupported := some true,
            lastValue := some "x" }]) ∧
    (getSpec {} (ResolvedInput.url "u")
      ⟨SendResult.success ⟨100, [], none⟩,
        SendResult.success ⟨200, [], some "y"⟩⟩
      { headers := {}, isHeadMethodSupported := none,
        lastValue := some "x" }).2.1.isHeadMethodSupported = some false ∧
    getPhase {} (ResolvedInput.url "u")
      ⟨SendResult.failure "h", SendResult.failure "down2"⟩
      { headers := {}, isHeadMethodSupported := none,
        lastValue := some "x" } none [] =
      (SpecResult.specError SpecErrorTag.notOk (errorResponse "down2"),
        { headers := {}, isHeadMethodSupported := none,
          lastValue := some "x" }, [getRequest {}]) ∧
    getPhase {} (ResolvedInput.url "u")
      ⟨SendResult.failure "h", SendResult.success ⟨500, [], none⟩⟩
      { headers := {}, isHeadMethodSupported := none,
        lastValue := some "x" } none [] =
      (SpecResult.specError SpecErrorTag.notOk ⟨500, [], none⟩,
        { headers := {}, isHeadMethodSupported := none,
          lastValue := some "x" }, [getRequest {}]) :=
  ⟨c9_failure_mapping.1 {} "u" "down"
      ⟨SendResult.failure "down", SendResult.failure "g"⟩
      { headers := {}, isHeadMethodSupported := none,
        lastValue := some "x" } (by decide) (by decide) rfl,
    c9_failure_mapping.2.1 {} "u"
      ⟨SendResult.success ⟨500, [], none⟩, SendResult.failure "g"⟩
      { headers := {}, isHeadMethodSupported := none,
        lastValue := some "x" } ⟨500, [], none⟩
      (by decide) (by decide) rfl (by decide),
    c9_failure_mapping.2.2.1 {} "u"
      ⟨SendResult.success ⟨100, [], none⟩, SendResult.failure "g"⟩
      { headers := {}, isHeadMethodSupported := some true,
        lastValue := some "x" } ⟨100, [], none⟩
      (by decide) rfl (by decide) (by decide) rfl,
    c9_failure_mapping.2.2.2.1 {} "u"
      ⟨SendResult.success ⟨100, [], none⟩,
        SendResult.success ⟨200, [], some "y"⟩⟩
      { headers := {}, isHeadMethodSupported := none,
        lastValue := some "x" } ⟨100, [], none⟩
      (by decide) rfl (by decide) (by decide) rfl,
    c9_failure_mapping.2.2.2.2.1 {} (ResolvedInput.url "u") "down2"
      ⟨SendResult.failure "h", SendResult.failure "down2"⟩
      { headers := {}, isHeadMethodSupported := none,
        lastValue := some "x" } none [] rfl,
    c9_failure_mapping.2.2.2.2.2 {} (ResolvedInput.url "u")
      ⟨SendResult.failure "h", SendResult.success ⟨500, [], none⟩⟩
      { headers := {}, isHeadMethodSupported := none,
        lastValue := some "x" } none [] ⟨500, [], none⟩ rfl
      (Or.inl (by decide))⟩

theorem getSpec_trace_cases (fo : RequestInit) (ri : ResolvedInput)
    (tr : Transport) (w : WatchValues) :
    (getSpec fo ri tr w).2.2 = [] ∨
    (getSpec fo ri tr w).2.2 = [getRequest fo] ∨
    (getSpec fo ri tr w).2.2 = [headRequest fo w] ∨
    (getSpec fo ri tr w).2.2 = [headRequest fo w, getRequest fo] := by
  cases ri with
  | url p =>
    simp only [getSpec]
    by_cases hcond : truthy w.lastValue = true ∧
      w.isHeadMethodSupported ≠ some false
    · rw [if_pos hcond]
      cases htr : tr.headResult with
      | failure m => simp
      | success r =>
        simp only []
        split_ifs <;> simp [getPhase_trace]
    · rw [if_neg hcond, getPhase_trace]
      simp
  | file p => simp [getSpec]
  | raw d => simp [getSpec]

/-- C10: in every invocation, a request issued from the HEAD call site
carries the caller headers merged with the stored watch validators, while
a request issued from the GET call site carries exactly the
caller-supplied `fetchOptions` headers — the watch validators are never
merged into the GET request. -/
theorem c10_watch_headers_only_on_head (fo : RequestInit)
    (ri : ResolvedInput) (tr : Transport) (w : WatchValues)
    (e : SentRequest) (he : e ∈ (getSpec fo ri tr w).2.2) :
    (e.phase = Phase.head →
      e.headers = mergeHeaders fo.headers w.headers.toList) ∧
    (e.phase = Phase.get → e.headers = fo.headers) := by
  rcases getSpec_trace_cases fo ri tr w with h | h | h | h <;>
    rw [h] at he <;> simp at he
  · rw [he]
    exact ⟨fun hp => by simp [getRequest] at hp, fun _ => rfl⟩
  · rw [he]
    exact ⟨fun _ => rfl, fun hp => by simp [headRequest] at hp⟩
  · rcases he with he | he <;> rw [he]
    · exact ⟨fun _ => rfl, fun hp => by simp [headRequest] at hp⟩
    · exact ⟨fun hp => by simp [getRequest] at hp, fun _ => rfl⟩

/-- C10 (witness): the theorem applied to the HEAD entry of a concrete
probing invocation. -/
theorem c10_watch_headers_only_on_head_witness :
    (headRequest { headers := [("Accept", "a")] }
        { headers := { ifNoneMatch := some "t1" },
          isHeadMethodSupported := none, lastValue := some "v" } ∈
      (getSpec { headers := [("Accept", "a")] } (ResolvedInput.url "u")
        ⟨SendResult.failure "down", SendResult.failure "g"⟩
        { headers := { ifNoneMatch := some "t1" },
          isHeadMethodSupported := none, lastValue := some "v" }).2.2) ∧
    ((headRequest { headers := [("Accept", "a")] }
        { headers := { ifNoneMatch := some "t1" },
          isHeadMethodSupported := none,
          lastValue := some "v" }).phase = Phase.head →
      (headRequest { headers := [("Accept", "a")] }
        { headers := { ifNoneMatch := some "t1" },
          isHeadMethodSupported := none,
          lastValue := some "v" }).headers =
        mergeHeaders [("Accept", "a")]
          (WatchHeaders.toList { ifNoneMatch := some "t1" })) ∧
    ((headRequest { headers := [("Accept", "a")] }
        { headers := { ifNoneMatch := some "t1" },
          isHeadMethodSupported := none,
          lastValue := some "v" }).phase = Phase.get →
      (headRequest { headers := [("Accept", "a")] }
        { headers := { ifNoneMatch := some "t1" },
          isHeadMethodSupported := none,
          lastValue := some "v" }).headers = [("Accept", "a")]) :=
  ⟨by decide,
    c10_watch_headers_only_on_head { headers := [("Accept", "a")] }
      (ResolvedInput.url "u")
      ⟨SendResult.failure "down", SendResult.failure "g"⟩
      { headers := { ifNoneMatch := some "t1" },
        isHeadMethodSupported := none, lastValue := some "v" }
      (headRequest { headers := [("Accept", "a")] }
        { headers := { ifNoneMatch := some "t1" },
          isHeadMethodSupported := none, lastValue := some "v" })
      (by decide)⟩

end OpenapiTs
